import Mathlib

/-!
Verification of the adjusted-Sharpe scoring metric from `src/metric.py`
(`compute_adjusted_sharpe`).

Embedding conventions:
* Tabular float data is idealized as exact rationals (`ℚ`); pandas `NaN`
  (a missing prediction, either from an unmatched left join or a null
  submission cell) is `Option.none`.
* The statistics (geometric mean via a real power, standard deviation via a
  real square root, the `sqrt(252)` annualization) live in `ℝ`.
* `solution.merge(submission, on=row_id_col, how='left')` is embedded as a
  left join that, like pandas, emits one output row per matching pair and a
  `none`-prediction row for an unmatched solution row.
* Errors are a tagged type `MetricError` mirroring the spec's taxonomy; the
  Python function raises `ValueError` at the corresponding program points.
* The dtype check (`np.issubdtype(df['prediction'].dtype, np.number)`) is
  always true in this model, because prediction values are rationals by
  type; the model therefore has no reachable `invalidPredictionType` branch.
-/

namespace Metric

/-- A row of the solution (ground-truth) dataset: identifier,
`forward_returns`, `risk_free_rate`. -/
structure SolutionRow where
  row_id : Int
  forward_returns : ℚ
  risk_free_rate : ℚ
deriving DecidableEq

/-- A row of the submission dataset: identifier and `prediction`
(`none` models a null/NaN cell). -/
structure SubmissionRow where
  row_id : Int
  prediction : Option ℚ
deriving DecidableEq

/-- A row of the merged frame `df = solution.merge(submission, how='left')`. -/
structure JoinedRow where
  row_id : Int
  forward_returns : ℚ
  risk_free_rate : ℚ
  prediction : Option ℚ
deriving DecidableEq

/-- The error taxonomy of the scorer (each is a `ValueError` in the source). -/
inductive MetricError where
  | missingPrediction
  | invalidPredictionType
  | outOfBounds
  | zeroVolatility
deriving DecidableEq

/-- `solution.merge(submission, on=row_id_col, how='left')`: for each
solution row, one output row per submission row with the same identifier
(in submission order), or a single row with a `none` prediction when no
submission row matches. -/
def merge (solution : List SolutionRow) (submission : List SubmissionRow) :
    List JoinedRow :=
  solution.flatMap (fun s =>
    let ps := submission.filter (fun p => p.row_id == s.row_id)
    if ps.isEmpty then [⟨s.row_id, s.forward_returns, s.risk_free_rate, none⟩]
    else ps.map (fun p =>
      ⟨s.row_id, s.forward_returns, s.risk_free_rate, p.prediction⟩))

/-- `df['position'] = df['prediction']`.  The `getD 0` default is never
relevant: the pipeline reads positions only after the null check passed. -/
def position (r : JoinedRow) : ℚ := r.prediction.getD 0

/-- `df['strategy_returns'] = df['risk_free_rate'] * (1 - df['position'])
+ df['position'] * df['forward_returns']` (one row). -/
def strategy_return (r : JoinedRow) : ℚ :=
  r.risk_free_rate * (1 - position r) + position r * r.forward_returns

/-- The `strategy_returns` column. -/
def strategy_returns (df : List JoinedRow) : List ℚ := df.map strategy_return

/-- The `forward_returns` column (market return series). -/
def market_returns (df : List JoinedRow) : List ℚ :=
  df.map (fun r => r.forward_returns)

/-- `strategy_excess = df['strategy_returns'] - df['risk_free_rate']`. -/
def strategy_excess (df : List JoinedRow) : List ℚ :=
  df.map (fun r => strategy_return r - r.risk_free_rate)

/-- `market_excess = df['forward_returns'] - df['risk_free_rate']`. -/
def market_excess (df : List JoinedRow) : List ℚ :=
  df.map (fun r => r.forward_returns - r.risk_free_rate)

/-- `(1 + excess).prod()`: cumulative growth of an excess-return series. -/
def excess_cum (excess : List ℚ) : ℚ := (excess.map (fun e => 1 + e)).prod

/-- `series.mean()`: arithmetic mean (pandas mean = sum / length). -/
def list_mean (l : List ℚ) : ℚ := l.sum / l.length

/-- The mean-excess computation shared by the strategy and the market
branch of the source (`n = len(df)`):
if the cumulative growth is `≤ 0`, fall back to the arithmetic mean,
otherwise take the per-period geometric mean `cum ** (1/n) - 1`. -/
noncomputable def mean_excess (excess : List ℚ) (n : ℕ) : ℝ :=
  if excess_cum excess ≤ 0 then ((list_mean excess : ℚ) : ℝ)
  else (excess_cum excess : ℝ) ^ ((1 : ℝ) / n) - 1

/-- Population variance (`ddof=0`): mean of squared deviations. -/
def var_pop (l : List ℚ) : ℚ :=
  (l.map (fun x => (x - list_mean l) ^ 2)).sum / l.length

/-- `series.std(ddof=0)`: population standard deviation. -/
noncomputable def std_pop (l : List ℚ) : ℝ := Real.sqrt (var_pop l)

/-- `std * np.sqrt(252) * 100.0`: annualized volatility in percent. -/
noncomputable def annualized_volatility (l : List ℚ) : ℝ :=
  std_pop l * Real.sqrt 252 * 100

/-- `mean_excess / std * np.sqrt(252)`: annualized Sharpe ratio. -/
noncomputable def sharpe_of (mean_exc std : ℝ) : ℝ :=
  mean_exc / std * Real.sqrt 252

/-- The strategy's annualized Sharpe ratio (`sharpe` in the source). -/
noncomputable def strategy_sharpe (df : List JoinedRow) : ℝ :=
  sharpe_of (mean_excess (strategy_excess df) df.length)
    (std_pop (strategy_returns df))

/-- The market's own unpenalized annualized Sharpe ratio: the source's
Sharpe formula applied to the raw market return series (the quantity the
spec's worked example compares the score against; the source computes it
only implicitly, through the strategy path, when the two series agree). -/
noncomputable def market_sharpe (df : List JoinedRow) : ℝ :=
  sharpe_of (mean_excess (market_excess df) df.length)
    (std_pop (market_returns df))

/-- `excess_vol = max(0, strategy_volatility / market_volatility - 1.2)`. -/
noncomputable def excess_vol_of (strategy_volatility market_volatility : ℝ) : ℝ :=
  max 0 (strategy_volatility / market_volatility - 1.2)

/-- `vol_penalty = 1 + excess_vol`. -/
noncomputable def vol_penalty_of (excess_vol : ℝ) : ℝ := 1 + excess_vol

/-- `return_gap = max(0, (market_mean_excess - strategy_mean_excess) * 100
* 252)`. -/
noncomputable def return_gap_of (market_mean_excess strategy_mean_excess : ℝ) : ℝ :=
  max 0 ((market_mean_excess - strategy_mean_excess) * 100 * 252)

/-- `return_penalty = 1 + (return_gap ** 2) / 100`. -/
noncomputable def return_penalty_of (return_gap : ℝ) : ℝ :=
  1 + return_gap ^ 2 / 100

/-- `adjusted_sharpe = sharpe / (vol_penalty * return_penalty)`. -/
noncomputable def adjusted_sharpe_of (sharpe vol_penalty return_penalty : ℝ) : ℝ :=
  sharpe / (vol_penalty * return_penalty)

/-- `df['prediction'].isnull().any()`. -/
def has_missing (df : List JoinedRow) : Bool :=
  df.any (fun r => r.prediction.isNone)

/-- `df['prediction'].max() > 2 or df['prediction'].min() < 0`: some value
exceeds 2 or some value is below 0 (on the empty frame the pandas
comparisons with `NaN` are `False`, matching `any` on `[]`). -/
def out_of_bounds (preds : List ℚ) : Bool :=
  preds.any (fun p => decide (2 < p)) || preds.any (fun p => decide (p < 0))

/-- The scorer `compute_adjusted_sharpe(solution, submission)`, stage by
stage in source order: merge, null check, bounds check (the dtype check is
vacuous in this model), strategy std check, market volatility check,
penalties, capped result. -/
noncomputable def compute_adjusted_sharpe (solution : List SolutionRow)
    (submission : List SubmissionRow) : Except MetricError ℝ :=
  let df := merge solution submission
  if has_missing df then .error .missingPrediction
  else if out_of_bounds (df.map position) then .error .outOfBounds
  else if std_pop (strategy_returns df) = 0 then .error .zeroVolatility
  else if annualized_volatility (market_returns df) = 0 then .error .zeroVolatility
  else
    let ev := excess_vol_of (annualized_volatility (strategy_returns df))
      (annualized_volatility (market_returns df))
    let rg := return_gap_of (mean_excess (market_excess df) df.length)
      (mean_excess (strategy_excess df) df.length)
    .ok (min (adjusted_sharpe_of (strategy_sharpe df) (vol_penalty_of ev)
      (return_penalty_of rg)) 1000000)

/-! ### Basic facts about the pipeline's branches -/

/-- A constant series: all entries are equal. -/
def AllEq (l : List ℚ) : Prop := ∀ x ∈ l, ∀ y ∈ l, x = y

instance (l : List ℚ) : Decidable (AllEq l) :=
  inferInstanceAs (Decidable (∀ x ∈ l, ∀ y ∈ l, x = y))

lemma compute_missing (solution : List SolutionRow)
    (submission : List SubmissionRow)
    (h : has_missing (merge solution submission) = true) :
    compute_adjusted_sharpe solution submission = .error .missingPrediction := by
  unfold compute_adjusted_sharpe
  simp [h]

lemma compute_oob (solution : List SolutionRow) (submission : List SubmissionRow)
    (h1 : has_missing (merge solution submission) = false)
    (h2 : out_of_bounds ((merge solution submission).map position) = true) :
    compute_adjusted_sharpe solution submission = .error .outOfBounds := by
  unfold compute_adjusted_sharpe
  simp [h1, h2]

lemma compute_zero_strategy (solution : List SolutionRow)
    (submission : List SubmissionRow)
    (h1 : has_missing (merge solution submission) = false)
    (h2 : out_of_bounds ((merge solution submission).map position) = false)
    (h3 : std_pop (strategy_returns (merge solution submission)) = 0) :
    compute_adjusted_sharpe solution submission = .error .zeroVolatility := by
  unfold compute_adjusted_sharpe
  simp [h1, h2, h3]

lemma compute_zero_market (solution : List SolutionRow)
    (submission : List SubmissionRow)
    (h1 : has_missing (merge solution submission) = false)
    (h2 : out_of_bounds ((merge solution submission).map position) = false)
    (h3 : std_pop (strategy_returns (merge solution submission)) ≠ 0)
    (h4 : annualized_volatility (market_returns (merge solution submission)) = 0) :
    compute_adjusted_sharpe solution submission = .error .zeroVolatility := by
  unfold compute_adjusted_sharpe
  simp [h1, h2, h3, h4]

lemma compute_ok (solution : List SolutionRow) (submission : List SubmissionRow)
    (h1 : has_missing (merge solution submission) = false)
    (h2 : out_of_bounds ((merge solution submission).map position) = false)
    (h3 : std_pop (strategy_returns (merge solution submission)) ≠ 0)
    (h4 : annualized_volatility (market_returns (merge solution submission)) ≠ 0) :
    compute_adjusted_sharpe solution submission =
      .ok (min (adjusted_sharpe_of (strategy_sharpe (merge solution submission))
        (vol_penalty_of (excess_vol_of
          (annualized_volatility (strategy_returns (merge solution submission)))
          (annualized_volatility (market_returns (merge solution submission)))))
        (return_penalty_of (return_gap_of
          (mean_excess (market_excess (merge solution submission))
            (merge solution submission).length)
          (mean_excess (strategy_excess (merge solution submission))
            (merge solution submission).length)))) 1000000) := by
  unfold compute_adjusted_sharpe
  simp [h1, h2, h3, h4]

lemma list_sum_eq_zero_iff (l : List ℚ) (h : ∀ x ∈ l, 0 ≤ x) :
    l.sum = 0 ↔ ∀ x ∈ l, x = 0 := by
  induction l with
  | nil => simp
  | cons a t ih =>
    have ha : 0 ≤ a := h a (List.mem_cons_self a t)
    have ht : ∀ x ∈ t, 0 ≤ x := fun x hx => h x (List.mem_cons_of_mem a hx)
    have hts : 0 ≤ t.sum := List.sum_nonneg ht
    rw [List.sum_cons]
    constructor
    · intro hz
      have haz : a = 0 := by linarith
      have htz : t.sum = 0 := by linarith
      intro x hx
      rcases List.mem_cons.mp hx with hxa | hxt
      · exact hxa.trans haz
      · exact (ih ht).mp htz x hxt
    · intro hz
      have : t.sum = 0 := (ih ht).mpr fun x hx => hz x (List.mem_cons_of_mem a hx)
      rw [hz a (List.mem_cons_self a t), this, add_zero]

lemma list_sum_const (l : List ℚ) (c : ℚ) (h : ∀ x ∈ l, x = c) :
    l.sum = c * l.length := by
  induction l with
  | nil => simp
  | cons a t ih =>
    have ha : a = c := h a (List.mem_cons_self a t)
    have ht : t.sum = c * t.length :=
      ih fun x hx => h x (List.mem_cons_of_mem a hx)
    rw [List.sum_cons, ha, ht, List.length_cons]
    push_cast
    ring

lemma var_pop_nonneg (l : List ℚ) : 0 ≤ var_pop l := by
  unfold var_pop
  apply div_nonneg _ (by positivity)
  apply List.sum_nonneg
  intro y hy
  rcases List.mem_map.mp hy with ⟨x, _, rfl⟩
  positivity

lemma list_mean_of_allEq (l : List ℚ) (x : ℚ) (hx : x ∈ l) (h : AllEq l) :
    list_mean l = x := by
  have hne : l ≠ [] := List.ne_nil_of_mem hx
  have hlen : (l.length : ℚ) ≠ 0 := Nat.cast_ne_zero.mpr (by simpa using hne)
  have hsum : l.sum = x * l.length :=
    list_sum_const l x fun y hy => h y hy x hx
  rw [list_mean, hsum, mul_div_assoc, div_self hlen, mul_one]

lemma var_pop_eq_zero_iff (l : List ℚ) (hne : l ≠ []) :
    var_pop l = 0 ↔ AllEq l := by
  have hlen : (l.length : ℚ) ≠ 0 := Nat.cast_ne_zero.mpr (by simpa using hne)
  unfold var_pop
  rw [div_eq_zero_iff]
  have hsq : ∀ y ∈ l.map (fun x => (x - list_mean l) ^ 2), 0 ≤ y := by
    intro y hy
    rcases List.mem_map.mp hy with ⟨x, _, rfl⟩
    positivity
  rw [or_iff_left hlen, list_sum_eq_zero_iff _ hsq]
  constructor
  · intro h x hx y hy
    have hx0 : (x - list_mean l) ^ 2 = 0 := h _ (List.mem_map.mpr ⟨x, hx, rfl⟩)
    have hy0 : (y - list_mean l) ^ 2 = 0 := h _ (List.mem_map.mpr ⟨y, hy, rfl⟩)
    have : x = list_mean l := by
      have := pow_eq_zero_iff (n := 2) (by norm_num) |>.mp hx0
      linarith [sub_eq_zero.mp this]
    have hy' : y = list_mean l := by
      have := pow_eq_zero_iff (n := 2) (by norm_num) |>.mp hy0
      linarith [sub_eq_zero.mp this]
    rw [this, hy']
  · intro h y hy
    rcases List.mem_map.mp hy with ⟨x, hx, rfl⟩
    rw [list_mean_of_allEq l x hx h]
    ring

lemma std_pop_eq_zero_iff (l : List ℚ) : std_pop l = 0 ↔ var_pop l = 0 := by
  unfold std_pop
  rw [Real.sqrt_eq_zero']
  constructor
  · intro h
    have h' : var_pop l ≤ 0 := by exact_mod_cast h
    exact le_antisymm h' (var_pop_nonneg l)
  · intro h
    rw [h]
    simp

lemma sqrt_252_pos : (0 : ℝ) < Real.sqrt 252 :=
  Real.sqrt_pos.mpr (by norm_num)

lemma annualized_volatility_eq_zero_iff (l : List ℚ) :
    annualized_volatility l = 0 ↔ std_pop l = 0 := by
  unfold annualized_volatility
  constructor
  · intro h
    rcases mul_eq_zero.mp h with h' | h'
    · rcases mul_eq_zero.mp h' with h'' | h''
      · exact h''
      · exact absurd h'' (ne_of_gt sqrt_252_pos)
    · norm_num at h'
  · intro h
    rw [h, zero_mul, zero_mul]

lemma mem_merge_matched (solution : List SolutionRow)
    (submission : List SubmissionRow) (s : SolutionRow) (p : SubmissionRow)
    (hs : s ∈ solution) (hp : p ∈ submission) (hid : p.row_id = s.row_id) :
    (⟨s.row_id, s.forward_returns, s.risk_free_rate, p.prediction⟩ :
      JoinedRow) ∈ merge solution submission := by
  unfold merge
  refine List.mem_flatMap.mpr ⟨s, hs, ?_⟩
  have hfil : p ∈ submission.filter (fun q => q.row_id == s.row_id) :=
    List.mem_filter.mpr ⟨hp, by simp [hid]⟩
  have hne : submission.filter (fun q => q.row_id == s.row_id) ≠ [] :=
    List.ne_nil_of_mem hfil
  rw [if_neg (by simp [List.isEmpty_iff, hne])]
  exact List.mem_map.mpr ⟨p, hfil, rfl⟩

lemma mem_merge_unmatched (solution : List SolutionRow)
    (submission : List SubmissionRow) (s : SolutionRow)
    (hs : s ∈ solution) (hnm : ∀ p ∈ submission, p.row_id ≠ s.row_id) :
    (⟨s.row_id, s.forward_returns, s.risk_free_rate, none⟩ :
      JoinedRow) ∈ merge solution submission := by
  unfold merge
  refine List.mem_flatMap.mpr ⟨s, hs, ?_⟩
  have hfil : submission.filter (fun q => q.row_id == s.row_id) = [] := by
    rw [List.filter_eq_nil_iff]
    intro p hp
    simpa using hnm p hp
  rw [hfil]
  simp

/-! ### Claim theorems -/

/-- Claim C4: for every joined row, the strategy return equals
`risk_free_rate * (1 - prediction) + prediction * forward_return`;
consequently a row with prediction 0 returns exactly the risk-free rate and
a row with prediction 1 returns exactly the forward return. -/
theorem C4_strategy_return_blend :
    (∀ r : JoinedRow, strategy_return r =
      r.risk_free_rate * (1 - position r) + position r * r.forward_returns) ∧
    (∀ r : JoinedRow, r.prediction = some 0 →
      strategy_return r = r.risk_free_rate) ∧
    (∀ r : JoinedRow, r.prediction = some 1 →
      strategy_return r = r.forward_returns) := by
  refine ⟨fun r => rfl, fun r h => ?_, fun r h => ?_⟩ <;>
    · rw [strategy_return, position, h]
      norm_num

/-- Witness for C4 at concrete rows. -/
theorem C4_strategy_return_blend_witness :
    (⟨0, 5, 3, some 0⟩ : JoinedRow).prediction = some 0 ∧
    strategy_return ⟨0, 5, 3, some 0⟩ = 3 ∧
    (⟨0, 5, 3, some 1⟩ : JoinedRow).prediction = some 1 ∧
    strategy_return ⟨0, 5, 3, some 1⟩ = 5 :=
  ⟨rfl, C4_strategy_return_blend.2.1 _ rfl, rfl,
    C4_strategy_return_blend.2.2 _ rfl⟩

/-- Claim C5: for each of the two return series, the mean excess return is
the arithmetic mean of the excess series when the cumulative product of
`(1 + excess_i)` is `≤ 0`, and is that cumulative product to the power
`1/n`, minus 1, otherwise; exactly one branch applies. -/
theorem C5_mean_excess_branches (df : List JoinedRow) :
    ((excess_cum (strategy_excess df) ≤ 0 →
      mean_excess (strategy_excess df) df.length =
        ((list_mean (strategy_excess df) : ℚ) : ℝ)) ∧
     (0 < excess_cum (strategy_excess df) →
      mean_excess (strategy_excess df) df.length =
        (excess_cum (strategy_excess df) : ℝ) ^ ((1 : ℝ) / df.length) - 1) ∧
     (excess_cum (strategy_excess df) ≤ 0 ↔
      ¬ 0 < excess_cum (strategy_excess df))) ∧
    ((excess_cum (market_excess df) ≤ 0 →
      mean_excess (market_excess df) df.length =
        ((list_mean (market_excess df) : ℚ) : ℝ)) ∧
     (0 < excess_cum (market_excess df) →
      mean_excess (market_excess df) df.length =
        (excess_cum (market_excess df) : ℝ) ^ ((1 : ℝ) / df.length) - 1) ∧
     (excess_cum (market_excess df) ≤ 0 ↔
      ¬ 0 < excess_cum (market_excess df))) := by
  constructor <;>
    refine ⟨fun h => by rw [mean_excess, if_pos h],
      fun h => by rw [mean_excess, if_neg (not_le.mpr h)], not_lt.symm⟩

/-- Witness for C5: a one-row frame whose market excess has positive
cumulative growth, hence the geometric branch applies. -/
theorem C5_mean_excess_branches_witness :
    0 < excess_cum (market_excess [⟨0, (1:ℚ)/2, 0, some 1⟩]) ∧
    mean_excess (market_excess [⟨0, (1:ℚ)/2, 0, some 1⟩]) 1 =
      (excess_cum (market_excess [⟨0, (1:ℚ)/2, 0, some 1⟩]) : ℝ) ^
        ((1 : ℝ) / 1) - 1 := by
  refine ⟨by norm_num [excess_cum, market_excess], ?_⟩
  have h := (C5_mean_excess_branches [⟨0, (1:ℚ)/2, 0, some 1⟩]).2.2.1
    (by norm_num [excess_cum, market_excess])
  simpa using h

/-- Claim C2 counterexample: with a negative Sharpe ratio and the
volatility penalty held fixed, increasing the return gap from 0 to 10
strictly increases (not decreases) the adjusted Sharpe. -/
theorem C2_monotonicity_counterexample :
    adjusted_sharpe_of (-1) (vol_penalty_of 0) (return_penalty_of 0) <
      adjusted_sharpe_of (-1) (vol_penalty_of 0) (return_penalty_of 10) := by
  norm_num [adjusted_sharpe_of, vol_penalty_of, return_penalty_of]

/-- Claim C2 (amended): for a fixed positive strategy Sharpe ratio and
fixed volatility penalty, strictly increasing the (nonnegative) return gap
strictly decreases the adjusted Sharpe; likewise for a fixed positive
Sharpe ratio and fixed return penalty, strictly increasing the
(nonnegative) excess volatility strictly decreases the adjusted Sharpe. -/
theorem C2_monotonicity_amended :
    (∀ s ev g g' : ℝ, 0 < s → 0 ≤ ev → 0 ≤ g → g < g' →
      adjusted_sharpe_of s (vol_penalty_of ev) (return_penalty_of g') <
        adjusted_sharpe_of s (vol_penalty_of ev) (return_penalty_of g)) ∧
    (∀ s ev ev' g : ℝ, 0 < s → 0 ≤ g → 0 ≤ ev → ev < ev' →
      adjusted_sharpe_of s (vol_penalty_of ev') (return_penalty_of g) <
        adjusted_sharpe_of s (vol_penalty_of ev) (return_penalty_of g)) := by
  constructor
  · intro s ev g g' hs hev hg hgg
    unfold adjusted_sharpe_of vol_penalty_of return_penalty_of
    have hg2 : g ^ 2 < g' ^ 2 := by nlinarith
    have hb : (0 : ℝ) < (1 + ev) * (1 + g ^ 2 / 100) := by positivity
    have hlt : (1 + ev) * (1 + g ^ 2 / 100) <
        (1 + ev) * (1 + g' ^ 2 / 100) := by nlinarith
    exact div_lt_div_of_pos_left hs hb hlt
  · intro s ev ev' g hs hg hev hevv
    unfold adjusted_sharpe_of vol_penalty_of return_penalty_of
    have hb : (0 : ℝ) < (1 + ev) * (1 + g ^ 2 / 100) := by positivity
    have hlt : (1 + ev) * (1 + g ^ 2 / 100) <
        (1 + ev') * (1 + g ^ 2 / 100) := by nlinarith [sq_nonneg g]
    exact div_lt_div_of_pos_left hs hb hlt

/-- Witness for the amended C2 at concrete penalty inputs. -/
theorem C2_monotonicity_amended_witness :
    (0 : ℝ) < 1 ∧
    adjusted_sharpe_of 1 (vol_penalty_of 0) (return_penalty_of 1) <
      adjusted_sharpe_of 1 (vol_penalty_of 0) (return_penalty_of 0) :=
  ⟨one_pos, C2_monotonicity_amended.1 1 0 0 1 one_pos le_rfl le_rfl one_pos⟩

lemma compute_cases (solution : List SolutionRow)
    (submission : List SubmissionRow) :
    (compute_adjusted_sharpe solution submission = .error .missingPrediction ↔
      has_missing (merge solution submission) = true) ∧
    (compute_adjusted_sharpe solution submission = .error .outOfBounds ↔
      has_missing (merge solution submission) = false ∧
      out_of_bounds ((merge solution submission).map position) = true) ∧
    (compute_adjusted_sharpe solution submission = .error .zeroVolatility ↔
      has_missing (merge solution submission) = false ∧
      out_of_bounds ((merge solution submission).map position) = false ∧
      (std_pop (strategy_returns (merge solution submission)) = 0 ∨
        annualized_volatility (market_returns (merge solution submission)) = 0)) := by
  by_cases h1 : has_missing (merge solution submission) = true
  · rw [compute_missing solution submission h1]
    simp [h1]
  · have h1' : has_missing (merge solution submission) = false := by
      simpa using h1
    by_cases h2 : out_of_bounds ((merge solution submission).map position) = true
    · rw [compute_oob solution submission h1' h2]
      simp [h1', h2]
    · have h2' : out_of_bounds ((merge solution submission).map position) = false := by
        simpa using h2
      by_cases h3 : std_pop (strategy_returns (merge solution submission)) = 0
      · rw [compute_zero_strategy solution submission h1' h2' h3]
        simp [h1', h2', h3]
      · by_cases h4 :
          annualized_volatility (market_returns (merge solution submission)) = 0
        · rw [compute_zero_market solution submission h1' h2' h3 h4]
          simp [h1', h2', h3, h4]
        · rw [compute_ok solution submission h1' h2' h3 h4]
          simp [h1', h2', h3, h4]

lemma has_missing_iff (df : List JoinedRow) :
    has_missing df = true ↔ ∃ r ∈ df, r.prediction = none := by
  simp [has_missing, List.any_eq_true, Option.isNone_iff_eq_none]

lemma out_of_bounds_iff (preds : List ℚ) :
    out_of_bounds preds = true ↔ ∃ p ∈ preds, p < 0 ∨ 2 < p := by
  simp only [out_of_bounds, Bool.or_eq_true, List.any_eq_true,
    decide_eq_true_eq]
  constructor
  · rintro (⟨p, hp, h⟩ | ⟨p, hp, h⟩)
    · exact ⟨p, hp, Or.inr h⟩
    · exact ⟨p, hp, Or.inl h⟩
  · rintro ⟨p, hp, h | h⟩
    · exact Or.inr ⟨p, hp, h⟩
    · exact Or.inl ⟨p, hp, h⟩

/-- Claim C8 counterexample: a submission that matches every solution
identifier but carries a null prediction still raises
`MissingPredictionError`, so "some solution row's identifier has no
matching submission row" is not equivalent to the raise condition. -/
theorem C8_missing_prediction_counterexample :
    (∀ s ∈ ([⟨0, 1, 0⟩] : List SolutionRow),
      ∃ p ∈ ([⟨0, none⟩] : List SubmissionRow), p.row_id = s.row_id) ∧
    compute_adjusted_sharpe [⟨0, 1, 0⟩] [⟨0, none⟩] =
      .error .missingPrediction := by
  constructor
  · intro s hs
    refine ⟨⟨0, none⟩, by simp, ?_⟩
    rw [List.mem_singleton.mp hs]
  · exact compute_missing _ _ (by norm_num [merge, has_missing])

/-- Claim C8 (amended): `score` raises `MissingPredictionError` exactly
when some joined row lacks a prediction after the left join — because its
identifier has no matching submission row, or because the matched
prediction is null; in that case no score is returned.  An unmatched
solution identifier is in particular sufficient. -/
theorem C8_missing_prediction_amended (solution : List SolutionRow)
    (submission : List SubmissionRow) :
    (compute_adjusted_sharpe solution submission = .error .missingPrediction ↔
      ∃ r ∈ merge solution submission, r.prediction = none) ∧
    ((∃ s ∈ solution, ∀ p ∈ submission, p.row_id ≠ s.row_id) →
      compute_adjusted_sharpe solution submission =
        .error .missingPrediction) := by
  constructor
  · rw [(compute_cases solution submission).1]
    exact has_missing_iff _
  · rintro ⟨s, hs, hnm⟩
    apply compute_missing
    exact (has_missing_iff _).mpr
      ⟨_, mem_merge_unmatched solution submission s hs hnm, rfl⟩

/-- Witness for the amended C8: a solution row with no matching submission
identifier yields the missing-prediction error. -/
theorem C8_missing_prediction_amended_witness :
    (∃ s ∈ ([⟨5, 1, 0⟩] : List SolutionRow),
      ∀ p ∈ ([⟨6, some 1⟩] : List SubmissionRow), p.row_id ≠ s.row_id) ∧
    compute_adjusted_sharpe [⟨5, 1, 0⟩] [⟨6, some 1⟩] =
      .error .missingPrediction := by
  have hx : ∃ s ∈ ([⟨5, 1, 0⟩] : List SolutionRow),
      ∀ p ∈ ([⟨6, some 1⟩] : List SubmissionRow), p.row_id ≠ s.row_id := by
    refine ⟨⟨5, 1, 0⟩, by simp, ?_⟩
    intro p hp
    rw [List.mem_singleton.mp hp]
    decide
  exact ⟨hx, (C8_missing_prediction_amended _ _).2 hx⟩

/-- Claim C10: a submission row whose identifier matches a solution row
but whose prediction is null leads to `MissingPredictionError` — the same
error as an absent identifier — because the null check on the merged
prediction column runs before the dtype and bounds checks. -/
theorem C10_null_prediction_is_missing (solution : List SolutionRow)
    (submission : List SubmissionRow)
    (h : ∃ s ∈ solution, ∃ p ∈ submission,
      p.row_id = s.row_id ∧ p.prediction = none) :
    compute_adjusted_sharpe solution submission =
      .error .missingPrediction := by
  rcases h with ⟨s, hs, p, hp, hid, hnone⟩
  apply compute_missing
  refine (has_missing_iff _).mpr
    ⟨_, mem_merge_matched solution submission s p hs hp hid, hnone⟩

/-- Witness for C10 at a concrete matched-but-null submission. -/
theorem C10_null_prediction_is_missing_witness :
    (∃ s ∈ ([⟨7, 1, 0⟩] : List SolutionRow),
      ∃ p ∈ ([⟨7, none⟩] : List SubmissionRow),
        p.row_id = s.row_id ∧ p.prediction = none) ∧
    compute_adjusted_sharpe [⟨7, 1, 0⟩] [⟨7, none⟩] =
      .error .missingPrediction := by
  have hx : ∃ s ∈ ([⟨7, 1, 0⟩] : List SolutionRow),
      ∃ p ∈ ([⟨7, none⟩] : List SubmissionRow),
        p.row_id = s.row_id ∧ p.prediction = none :=
    ⟨⟨7, 1, 0⟩, by simp, ⟨7, none⟩, by simp, rfl, rfl⟩
  exact ⟨hx, C10_null_prediction_is_missing _ _ hx⟩

/-- Claim C7: with every prediction present, `score` raises
`OutOfBoundsError` exactly when some prediction lies outside `[0, 2]`. -/
theorem C7_out_of_bounds_iff (solution : List SolutionRow)
    (submission : List SubmissionRow)
    (h1 : has_missing (merge solution submission) = false) :
    compute_adjusted_sharpe solution submission = .error .outOfBounds ↔
      ∃ q ∈ (merge solution submission).map position, q < 0 ∨ 2 < q := by
  rw [(compute_cases solution submission).2.1, ← out_of_bounds_iff]
  simp [h1]

/-- Witness for C7: a prediction of `5/2` is rejected with
`OutOfBoundsError`, while the boundary predictions `0` and `2` are not. -/
theorem C7_out_of_bounds_iff_witness :
    has_missing (merge [⟨0, 1, 0⟩, ⟨1, 2, 0⟩]
      [⟨0, some (5/2)⟩, ⟨1, some 1⟩]) = false ∧
    compute_adjusted_sharpe [⟨0, 1, 0⟩, ⟨1, 2, 0⟩]
      [⟨0, some (5/2)⟩, ⟨1, some 1⟩] = .error .outOfBounds ∧
    compute_adjusted_sharpe [⟨0, 1, 0⟩, ⟨1, 2, 0⟩]
      [⟨0, some 0⟩, ⟨1, some 2⟩] ≠ .error .outOfBounds := by
  have h1 : has_missing (merge [⟨0, 1, 0⟩, ⟨1, 2, 0⟩]
      [⟨0, some (5/2)⟩, ⟨1, some 1⟩]) = false := by
    norm_num [merge, has_missing]
  have h1' : has_missing (merge [⟨0, 1, 0⟩, ⟨1, 2, 0⟩]
      [⟨0, some 0⟩, ⟨1, some 2⟩]) = false := by
    norm_num [merge, has_missing]
  refine ⟨h1, (C7_out_of_bounds_iff _ _ h1).mpr ?_, fun hco => ?_⟩
  · refine ⟨5/2, ?_, by norm_num⟩
    norm_num [merge, position]
  · have := (C7_out_of_bounds_iff _ _ h1').mp hco
    rcases this with ⟨q, hq, hbad⟩
    rw [show (merge [⟨0, 1, 0⟩, ⟨1, 2, 0⟩]
      [⟨0, some 0⟩, ⟨1, some 2⟩]).map position = [0, 2] by
        norm_num [merge, position]] at hq
    rcases List.mem_pair.mp hq with rfl | rfl <;> norm_num at hbad

/-- Claim C9 counterexample: a submission with a duplicated identifier
makes the left join produce more rows than the solution (pandas emits one
row per matching pair). -/
theorem C9_join_size_counterexample :
    (merge [⟨0, 1, 0⟩] [⟨0, some 1⟩, ⟨0, some 1⟩]).length = 2 ∧
    ([⟨0, 1, 0⟩] : List SolutionRow).length = 1 ∧
    (merge [⟨0, 1, 0⟩] [⟨0, some 1⟩, ⟨0, some 1⟩]).length ≠
      ([⟨0, 1, 0⟩] : List SolutionRow).length := by
  refine ⟨by norm_num [merge], rfl, by norm_num [merge]⟩

/-- Claim C9 (amended): whenever each solution identifier matches at most
one submission row, the left join has exactly as many rows as the
solution dataset. -/
theorem C9_join_size_amended (solution : List SolutionRow)
    (submission : List SubmissionRow)
    (h : ∀ s ∈ solution,
      (submission.filter (fun p => p.row_id == s.row_id)).length ≤ 1) :
    (merge solution submission).length = solution.length := by
  induction solution with
  | nil => rfl
  | cons s rest ih =>
    have hs := h s (List.mem_cons_self s rest)
    have hrest : (merge rest submission).length = rest.length :=
      ih fun x hx => h x (List.mem_cons_of_mem s hx)
    have hcons : merge (s :: rest) submission =
        (let ps := submission.filter (fun p => p.row_id == s.row_id)
         if ps.isEmpty then
           [⟨s.row_id, s.forward_returns, s.risk_free_rate, none⟩]
         else ps.map fun p =>
           ⟨s.row_id, s.forward_returns, s.risk_free_rate, p.prediction⟩)
          ++ merge rest submission := rfl
    rw [hcons, List.length_append, hrest, List.length_cons]
    rcases hfil : submission.filter (fun p => p.row_id == s.row_id)
      with _ | ⟨p, ps⟩
    · simp [hfil]
      omega
    · rw [hfil] at hs
      have hps : ps = [] := by
        rw [List.length_cons] at hs
        exact List.eq_nil_of_length_eq_zero (by omega)
      subst hps
      simp [hfil]
      omega

/-- Witness for the amended C9 at a concrete two-row solution. -/
theorem C9_join_size_amended_witness :
    (∀ s ∈ ([⟨0, 1, 0⟩, ⟨1, 2, 0⟩] : List SolutionRow),
      (([⟨0, some 1⟩] : List SubmissionRow).filter
        (fun p => p.row_id == s.row_id)).length ≤ 1) ∧
    (merge [⟨0, 1, 0⟩, ⟨1, 2, 0⟩] [⟨0, some 1⟩]).length =
      ([⟨0, 1, 0⟩, ⟨1, 2, 0⟩] : List SolutionRow).length := by
  have h : ∀ s ∈ ([⟨0, 1, 0⟩, ⟨1, 2, 0⟩] : List SolutionRow),
      (([⟨0, some 1⟩] : List SubmissionRow).filter
        (fun p => p.row_id == s.row_id)).length ≤ 1 := by
    intro s hs
    rcases List.mem_pair.mp hs with rfl | rfl <;> simp [List.filter]
  exact ⟨h, C9_join_size_amended _ _ h⟩

/-- Claim C6: after the merge and prediction validation passes (and the
joined frame is nonempty), `score` raises `ZeroVolatilityError` exactly
when the strategy's population standard deviation is zero or the market's
annualized volatility is zero — equivalently, when the corresponding
return series is constant. -/
theorem C6_zero_volatility_iff (solution : List SolutionRow)
    (submission : List SubmissionRow)
    (h1 : has_missing (merge solution submission) = false)
    (h2 : out_of_bounds ((merge solution submission).map position) = false)
    (hne : merge solution submission ≠ []) :
    (compute_adjusted_sharpe solution submission = .error .zeroVolatility ↔
      std_pop (strategy_returns (merge solution submission)) = 0 ∨
        annualized_volatility (market_returns (merge solution submission)) = 0) ∧
    (std_pop (strategy_returns (merge solution submission)) = 0 ↔
      AllEq (strategy_returns (merge solution submission))) ∧
    (annualized_volatility (market_returns (merge solution submission)) = 0 ↔
      AllEq (market_returns (merge solution submission))) := by
  have hne1 : strategy_returns (merge solution submission) ≠ [] := by
    simpa [strategy_returns] using hne
  have hne2 : market_returns (merge solution submission) ≠ [] := by
    simpa [market_returns] using hne
  refine ⟨?_, ?_, ?_⟩
  · rw [(compute_cases solution submission).2.2]
    simp [h1, h2]
  · rw [std_pop_eq_zero_iff, var_pop_eq_zero_iff _ hne1]
  · rw [annualized_volatility_eq_zero_iff, std_pop_eq_zero_iff,
      var_pop_eq_zero_iff _ hne2]

/-- Witness for C6: an all-cash submission (prediction 0) over a constant
risk-free rate yields a constant strategy return series and the zero
volatility error. -/
theorem C6_zero_volatility_iff_witness :
    has_missing (merge [⟨0, 1/10, 1/100⟩, ⟨1, 2/10, 1/100⟩]
      [⟨0, some 0⟩, ⟨1, some 0⟩]) = false ∧
    out_of_bounds ((merge [⟨0, 1/10, 1/100⟩, ⟨1, 2/10, 1/100⟩]
      [⟨0, some 0⟩, ⟨1, some 0⟩]).map position) = false ∧
    merge [⟨0, 1/10, 1/100⟩, ⟨1, 2/10, 1/100⟩]
      [⟨0, some 0⟩, ⟨1, some 0⟩] ≠ [] ∧
    compute_adjusted_sharpe [⟨0, 1/10, 1/100⟩, ⟨1, 2/10, 1/100⟩]
      [⟨0, some 0⟩, ⟨1, some 0⟩] = .error .zeroVolatility := by
  have h1 : has_missing (merge [⟨0, 1/10, 1/100⟩, ⟨1, 2/10, 1/100⟩]
      [⟨0, some 0⟩, ⟨1, some 0⟩]) = false := by
    norm_num [merge, has_missing]
  have h2 : out_of_bounds ((merge [⟨0, 1/10, 1/100⟩, ⟨1, 2/10, 1/100⟩]
      [⟨0, some 0⟩, ⟨1, some 0⟩]).map position) = false := by
    norm_num [merge, out_of_bounds, position]
  have hne : merge [⟨0, 1/10, 1/100⟩, ⟨1, 2/10, 1/100⟩]
      [⟨0, some 0⟩, ⟨1, some 0⟩] ≠ [] := by
    have hlen : (merge [⟨0, 1/10, 1/100⟩, ⟨1, 2/10, 1/100⟩]
        [⟨0, some 0⟩, ⟨1, some 0⟩]).length = 2 := by
      norm_num [merge]
    intro h
    rw [h] at hlen
    simp at hlen
  have hA : AllEq (strategy_returns (merge [⟨0, 1/10, 1/100⟩, ⟨1, 2/10, 1/100⟩]
      [⟨0, some 0⟩, ⟨1, some 0⟩])) := by
    norm_num [merge, strategy_returns, strategy_return, position, AllEq]
  have hiff := C6_zero_volatility_iff _ _ h1 h2 hne
  exact ⟨h1, h2, hne, hiff.1.mpr (Or.inl (hiff.2.1.mpr hA))⟩

/-- Claim C1: whenever all validation and zero-volatility checks pass, the
score is `min(strategy_sharpe / (vol_penalty * return_penalty), 1000000)`;
and every returned score, for any input, is at most 1,000,000. -/
theorem C1_capped_score :
    (∀ (solution : List SolutionRow) (submission : List SubmissionRow),
      has_missing (merge solution submission) = false →
      out_of_bounds ((merge solution submission).map position) = false →
      std_pop (strategy_returns (merge solution submission)) ≠ 0 →
      annualized_volatility (market_returns (merge solution submission)) ≠ 0 →
      compute_adjusted_sharpe solution submission =
        .ok (min (adjusted_sharpe_of
          (strategy_sharpe (merge solution submission))
          (vol_penalty_of (excess_vol_of
            (annualized_volatility (strategy_returns (merge solution submission)))
            (annualized_volatility (market_returns (merge solution submission)))))
          (return_penalty_of (return_gap_of
            (mean_excess (market_excess (merge solution submission))
              (merge solution submission).length)
            (mean_excess (strategy_excess (merge solution submission))
              (merge solution submission).length)))) 1000000)) ∧
    (∀ (solution : List SolutionRow) (submission : List SubmissionRow)
      (v : ℝ), compute_adjusted_sharpe solution submission = .ok v →
        v ≤ 1000000) := by
  constructor
  · exact compute_ok
  · intro solution submission v hv
    simp only [compute_adjusted_sharpe] at hv
    split at hv
    · exact absurd hv (by simp)
    · split at hv
      · exact absurd hv (by simp)
      · split at hv
        · exact absurd hv (by simp)
        · split at hv
          · exact absurd hv (by simp)
          · rw [Except.ok.injEq] at hv
            rw [← hv]
            exact min_le_right _ _

/-- Witness for C1 at a concrete passing input. -/
theorem C1_capped_score_witness :
    has_missing (merge [⟨0, 1/10, 0⟩, ⟨1, -1/10, 0⟩]
      [⟨0, some 1⟩, ⟨1, some 1⟩]) = false ∧
    out_of_bounds ((merge [⟨0, 1/10, 0⟩, ⟨1, -1/10, 0⟩]
      [⟨0, some 1⟩, ⟨1, some 1⟩]).map position) = false ∧
    std_pop (strategy_returns (merge [⟨0, 1/10, 0⟩, ⟨1, -1/10, 0⟩]
      [⟨0, some 1⟩, ⟨1, some 1⟩])) ≠ 0 ∧
    annualized_volatility (market_returns (merge [⟨0, 1/10, 0⟩, ⟨1, -1/10, 0⟩]
      [⟨0, some 1⟩, ⟨1, some 1⟩])) ≠ 0 ∧
    compute_adjusted_sharpe [⟨0, 1/10, 0⟩, ⟨1, -1/10, 0⟩]
      [⟨0, some 1⟩, ⟨1, some 1⟩] =
      .ok (min (adjusted_sharpe_of
        (strategy_sharpe (merge [⟨0, 1/10, 0⟩, ⟨1, -1/10, 0⟩]
          [⟨0, some 1⟩, ⟨1, some 1⟩]))
        (vol_penalty_of (excess_vol_of
          (annualized_volatility (strategy_returns
            (merge [⟨0, 1/10, 0⟩, ⟨1, -1/10, 0⟩] [⟨0, some 1⟩, ⟨1, some 1⟩])))
          (annualized_volatility (market_returns
            (merge [⟨0, 1/10, 0⟩, ⟨1, -1/10, 0⟩] [⟨0, some 1⟩, ⟨1, some 1⟩])))))
        (return_penalty_of (return_gap_of
          (mean_excess (market_excess
            (merge [⟨0, 1/10, 0⟩, ⟨1, -1/10, 0⟩] [⟨0, some 1⟩, ⟨1, some 1⟩]))
            (merge [⟨0, 1/10, 0⟩, ⟨1, -1/10, 0⟩] [⟨0, some 1⟩, ⟨1, some 1⟩]).length)
          (mean_excess (strategy_excess
            (merge [⟨0, 1/10, 0⟩, ⟨1, -1/10, 0⟩] [⟨0, some 1⟩, ⟨1, some 1⟩]))
            (merge [⟨0, 1/10, 0⟩, ⟨1, -1/10, 0⟩] [⟨0, some 1⟩, ⟨1, some 1⟩]).length))))
        1000000) := by
  have h1 : has_missing (merge [⟨0, 1/10, 0⟩, ⟨1, -1/10, 0⟩]
      [⟨0, some 1⟩, ⟨1, some 1⟩]) = false := by
    norm_num [merge, has_missing]
  have h2 : out_of_bounds ((merge [⟨0, 1/10, 0⟩, ⟨1, -1/10, 0⟩]
      [⟨0, some 1⟩, ⟨1, some 1⟩]).map position) = false := by
    norm_num [merge, out_of_bounds, position]
  have hsr : strategy_returns (merge [⟨0, 1/10, 0⟩, ⟨1, -1/10, 0⟩]
      [⟨0, some 1⟩, ⟨1, some 1⟩]) = [1/10, -1/10] := by
    norm_num [merge, strategy_returns, strategy_return, position]
  have hmr : market_returns (merge [⟨0, 1/10, 0⟩, ⟨1, -1/10, 0⟩]
      [⟨0, some 1⟩, ⟨1, some 1⟩]) = [1/10, -1/10] := by
    norm_num [merge, market_returns]
  have hvar : var_pop ([1/10, -1/10] : List ℚ) ≠ 0 := by
    norm_num [var_pop, list_mean]
  have h3 : std_pop (strategy_returns (merge [⟨0, 1/10, 0⟩, ⟨1, -1/10, 0⟩]
      [⟨0, some 1⟩, ⟨1, some 1⟩])) ≠ 0 := by
    rw [Ne, std_pop_eq_zero_iff, hsr]
    exact hvar
  have h4 : annualized_volatility (market_returns
      (merge [⟨0, 1/10, 0⟩, ⟨1, -1/10, 0⟩] [⟨0, some 1⟩, ⟨1, some 1⟩])) ≠ 0 := by
    rw [Ne, annualized_volatility_eq_zero_iff, std_pop_eq_zero_iff, hmr]
    exact hvar
  exact ⟨h1, h2, h3, h4, C1_capped_score.1 _ _ h1 h2 h3 h4⟩

lemma all_ones_eval (solution : List SolutionRow)
    (submission : List SubmissionRow)
    (h1 : ∀ r ∈ merge solution submission, r.prediction = some 1)
    (hnc : ¬ AllEq (market_returns (merge solution submission))) :
    strategy_returns (merge solution submission) =
      market_returns (merge solution submission) ∧
    excess_vol_of
      (annualized_volatility (strategy_returns (merge solution submission)))
      (annualized_volatility (market_returns (merge solution submission))) = 0 ∧
    return_gap_of
      (mean_excess (market_excess (merge solution submission))
        (merge solution submission).length)
      (mean_excess (strategy_excess (merge solution submission))
        (merge solution submission).length) = 0 ∧
    compute_adjusted_sharpe solution submission =
      .ok (min (market_sharpe (merge solution submission)) 1000000) := by
  have hSR : strategy_returns (merge solution submission) =
      market_returns (merge solution submission) := by
    unfold strategy_returns market_returns
    apply List.map_congr_left
    intro r hr
    rw [strategy_return, position, h1 r hr]
    simp
  have hSE : strategy_excess (merge solution submission) =
      market_excess (merge solution submission) := by
    unfold strategy_excess market_excess
    apply List.map_congr_left
    intro r hr
    rw [strategy_return, position, h1 r hr]
    simp
  have hne : merge solution submission ≠ [] := by
    intro h
    apply hnc
    have hmr : market_returns (merge solution submission) = [] := by
      rw [h]
      rfl
    rw [hmr]
    intro x hx
    simp at hx
  have hne2 : market_returns (merge solution submission) ≠ [] := by
    simpa [market_returns] using hne
  have hvar : var_pop (market_returns (merge solution submission)) ≠ 0 :=
    fun h => hnc ((var_pop_eq_zero_iff _ hne2).mp h)
  have hstd : std_pop (market_returns (merge solution submission)) ≠ 0 :=
    fun h => hvar ((std_pop_eq_zero_iff _).mp h)
  have h3 : std_pop (strategy_returns (merge solution submission)) ≠ 0 := by
    rw [hSR]
    exact hstd
  have h4 : annualized_volatility (market_returns (merge solution submission)) ≠ 0 :=
    fun h => hstd ((annualized_volatility_eq_zero_iff _).mp h)
  have h1' : has_missing (merge solution submission) = false := by
    simp only [has_missing, List.any_eq_false]
    intro r hr
    simp [h1 r hr]
  have h2' : out_of_bounds ((merge solution submission).map position) = false := by
    have hnot : ¬ out_of_bounds ((merge solution submission).map position) = true := by
      rw [out_of_bounds_iff]
      rintro ⟨q, hq, hbad⟩
      rcases List.mem_map.mp hq with ⟨r, hr, rfl⟩
      rw [position, h1 r hr] at hbad
      norm_num at hbad
    simpa using hnot
  have hEV : excess_vol_of
      (annualized_volatility (strategy_returns (merge solution submission)))
      (annualized_volatility (market_returns (merge solution submission))) = 0 := by
    rw [excess_vol_of, hSR, div_self h4]
    exact max_eq_left (by norm_num)
  have hRG : return_gap_of
      (mean_excess (market_excess (merge solution submission))
        (merge solution submission).length)
      (mean_excess (strategy_excess (merge solution submission))
        (merge solution submission).length) = 0 := by
    rw [return_gap_of, hSE, sub_self, zero_mul, zero_mul]
    exact max_self 0
  refine ⟨hSR, hEV, hRG, ?_⟩
  rw [compute_ok solution submission h1' h2' h3 h4, hEV, hRG]
  have hadj : adjusted_sharpe_of (strategy_sharpe (merge solution submission))
      (vol_penalty_of 0) (return_penalty_of 0) =
      market_sharpe (merge solution submission) := by
    rw [vol_penalty_of, return_penalty_of, adjusted_sharpe_of,
      strategy_sharpe, market_sharpe, hSE, hSR]
    norm_num
  rw [hadj]

/-- Claim C3 counterexample: with all predictions 1 and a non-constant
forward-return series engineered so that the market Sharpe exceeds the
cap, the returned score is the cap 1,000,000, not the market's own
unpenalized Sharpe ratio. -/
theorem C3_worked_example_counterexample :
    compute_adjusted_sharpe
      [⟨0, 1000001/1000000, 0⟩, ⟨1, 1999999/2000001, 0⟩]
      [⟨0, some 1⟩, ⟨1, some 1⟩] = .ok 1000000 ∧
    market_sharpe (merge [⟨0, 1000001/1000000, 0⟩, ⟨1, 1999999/2000001, 0⟩]
      [⟨0, some 1⟩, ⟨1, some 1⟩]) ≠ 1000000 := by
  have hmerge : merge [⟨0, 1000001/1000000, 0⟩, ⟨1, 1999999/2000001, 0⟩]
      [⟨0, some 1⟩, ⟨1, some 1⟩] =
      [⟨0, 1000001/1000000, 0, some 1⟩, ⟨1, 1999999/2000001, 0, some 1⟩] := by
    norm_num [merge]
  have h1 : ∀ r ∈ merge [⟨0, 1000001/1000000, 0⟩, ⟨1, 1999999/2000001, 0⟩]
      [⟨0, some 1⟩, ⟨1, some 1⟩], r.prediction = some 1 := by
    rw [hmerge]
    intro r hr
    rcases List.mem_pair.mp hr with rfl | rfl <;> rfl
  have hmr : market_returns (merge [⟨0, 1000001/1000000, 0⟩, ⟨1, 1999999/2000001, 0⟩]
      [⟨0, some 1⟩, ⟨1, some 1⟩]) = [1000001/1000000, 1999999/2000001] := by
    rw [hmerge]
    norm_num [market_returns]
  have hnc : ¬ AllEq (market_returns
      (merge [⟨0, 1000001/1000000, 0⟩, ⟨1, 1999999/2000001, 0⟩]
        [⟨0, some 1⟩, ⟨1, some 1⟩])) := by
    rw [hmr]
    intro h
    have := h (1000001/1000000) (by simp) (1999999/2000001) (by simp)
    norm_num at this
  obtain ⟨hSR, hEV, hRG, hok⟩ := all_ones_eval _ _ h1 hnc
  have hme : market_excess (merge [⟨0, 1000001/1000000, 0⟩, ⟨1, 1999999/2000001, 0⟩]
      [⟨0, some 1⟩, ⟨1, some 1⟩]) = [1000001/1000000, 1999999/2000001] := by
    rw [hmerge]
    norm_num [market_excess]
  have hlen : (merge [⟨0, 1000001/1000000, 0⟩, ⟨1, 1999999/2000001, 0⟩]
      [⟨0, some 1⟩, ⟨1, some 1⟩]).length = 2 := by
    rw [hmerge]
    rfl
  have hcum : excess_cum [1000001/1000000, 1999999/2000001] = 4 := by
    norm_num [excess_cum]
  have hmean : mean_excess [1000001/1000000, 1999999/2000001] 2 = 1 := by
    rw [mean_excess, if_neg (by rw [hcum]; norm_num), hcum]
    have hpow : ((4:ℚ):ℝ) ^ ((1:ℝ) / ((2:ℕ):ℝ)) = 2 := by
      rw [show ((4:ℚ):ℝ) = (2:ℝ) ^ (2:ℕ) by norm_num, one_div]
      exact Real.pow_rpow_inv_natCast (by norm_num) (by norm_num)
    rw [hpow]
    norm_num
  have hvar : var_pop [1000001/1000000, 1999999/2000001] =
      (4000001/4000002000000 : ℚ) ^ 2 := by
    norm_num [var_pop, list_mean]
  have hstd : std_pop [1000001/1000000, 1999999/2000001] =
      ((4000001/4000002000000 : ℚ) : ℝ) := by
    rw [std_pop, hvar]
    push_cast
    exact Real.sqrt_sq (by norm_num)
  have hms : market_sharpe (merge [⟨0, 1000001/1000000, 0⟩, ⟨1, 1999999/2000001, 0⟩]
      [⟨0, some 1⟩, ⟨1, some 1⟩]) =
      1 / ((4000001/4000002000000 : ℚ) : ℝ) * Real.sqrt 252 := by
    rw [market_sharpe, hme, hmr, hlen, sharpe_of, hmean, hstd]
  have hsqrt : (15:ℝ) < Real.sqrt 252 :=
    (Real.lt_sqrt (by norm_num)).mpr (by norm_num)
  have hKpos : (0:ℝ) < 1 / ((4000001/4000002000000 : ℚ) : ℝ) := by
    push_cast
    norm_num
  have hgt : (1000000:ℝ) < market_sharpe
      (merge [⟨0, 1000001/1000000, 0⟩, ⟨1, 1999999/2000001, 0⟩]
        [⟨0, some 1⟩, ⟨1, some 1⟩]) := by
    rw [hms]
    have hstep : (1000000:ℝ) < 1 / ((4000001/4000002000000 : ℚ) : ℝ) * 15 := by
      push_cast
      norm_num
    calc (1000000:ℝ) < 1 / ((4000001/4000002000000 : ℚ) : ℝ) * 15 := hstep
      _ ≤ 1 / ((4000001/4000002000000 : ℚ) : ℝ) * Real.sqrt 252 :=
        mul_le_mul_of_nonneg_left hsqrt.le hKpos.le
  refine ⟨?_, hgt.ne'⟩
  rw [hok, min_eq_right hgt.le]

/-- Claim C3 (amended): for a joined set with every prediction 1 and a
non-constant forward-return series, the strategy return series equals the
forward-return series exactly, both penalties are 1, and the returned
score is `min(market Sharpe, 1000000)`; whenever that market Sharpe is at
most the cap — as in the spec's worked example — the score equals the
market's own unpenalized annualized Sharpe ratio. -/
theorem C3_all_ones_amended (solution : List SolutionRow)
    (submission : List SubmissionRow)
    (h1 : ∀ r ∈ merge solution submission, r.prediction = some 1)
    (hnc : ¬ AllEq (market_returns (merge solution submission))) :
    strategy_returns (merge solution submission) =
      market_returns (merge solution submission) ∧
    vol_penalty_of (excess_vol_of
      (annualized_volatility (strategy_returns (merge solution submission)))
      (annualized_volatility (market_returns (merge solution submission)))) = 1 ∧
    return_penalty_of (return_gap_of
      (mean_excess (market_excess (merge solution submission))
        (merge solution submission).length)
      (mean_excess (strategy_excess (merge solution submission))
        (merge solution submission).length)) = 1 ∧
    compute_adjusted_sharpe solution submission =
      .ok (min (market_sharpe (merge solution submission)) 1000000) ∧
    (market_sharpe (merge solution submission) ≤ 1000000 →
      compute_adjusted_sharpe solution submission =
        .ok (market_sharpe (merge solution submission))) := by
  obtain ⟨hSR, hEV, hRG, hok⟩ := all_ones_eval solution submission h1 hnc
  refine ⟨hSR, ?_, ?_, hok, fun hle => ?_⟩
  · rw [hEV, vol_penalty_of]
    norm_num
  · rw [hRG, return_penalty_of]
    norm_num
  · rw [hok, min_eq_left hle]

/-- Witness for the amended C3: the spec's worked example
(`forward_returns = [0.01, -0.02, 0.015]`, `risk_free_rate = 0.0001`,
all predictions 1), where the market Sharpe is far below the cap, so the
score equals the market's unpenalized Sharpe ratio. -/
theorem C3_all_ones_amended_witness :
    (∀ r ∈ merge [⟨0, 1/100, 1/10000⟩, ⟨1, -1/50, 1/10000⟩, ⟨2, 3/200, 1/10000⟩]
      [⟨0, some 1⟩, ⟨1, some 1⟩, ⟨2, some 1⟩], r.prediction = some 1) ∧
    ¬ AllEq (market_returns
      (merge [⟨0, 1/100, 1/10000⟩, ⟨1, -1/50, 1/10000⟩, ⟨2, 3/200, 1/10000⟩]
        [⟨0, some 1⟩, ⟨1, some 1⟩, ⟨2, some 1⟩])) ∧
    compute_adjusted_sharpe
      [⟨0, 1/100, 1/10000⟩, ⟨1, -1/50, 1/10000⟩, ⟨2, 3/200, 1/10000⟩]
      [⟨0, some 1⟩, ⟨1, some 1⟩, ⟨2, some 1⟩] =
      .ok (market_sharpe
        (merge [⟨0, 1/100, 1/10000⟩, ⟨1, -1/50, 1/10000⟩, ⟨2, 3/200, 1/10000⟩]
          [⟨0, some 1⟩, ⟨1, some 1⟩, ⟨2, some 1⟩])) := by
  have hmerge : merge [⟨0, 1/100, 1/10000⟩, ⟨1, -1/50, 1/10000⟩,
      ⟨2, 3/200, 1/10000⟩] [⟨0, some 1⟩, ⟨1, some 1⟩, ⟨2, some 1⟩] =
      [⟨0, 1/100, 1/10000, some 1⟩, ⟨1, -1/50, 1/10000, some 1⟩,
        ⟨2, 3/200, 1/10000, some 1⟩] := by
    norm_num [merge]
  have h1 : ∀ r ∈ merge [⟨0, 1/100, 1/10000⟩, ⟨1, -1/50, 1/10000⟩,
      ⟨2, 3/200, 1/10000⟩] [⟨0, some 1⟩, ⟨1, some 1⟩, ⟨2, some 1⟩],
      r.prediction = some 1 := by
    rw [hmerge]
    intro r hr
    simp at hr
    rcases hr with rfl | rfl | rfl <;> rfl
  have hmr : market_returns (merge [⟨0, 1/100, 1/10000⟩, ⟨1, -1/50, 1/10000⟩,
      ⟨2, 3/200, 1/10000⟩] [⟨0, some 1⟩, ⟨1, some 1⟩, ⟨2, some 1⟩]) =
      [1/100, -1/50, 3/200] := by
    rw [hmerge]
    norm_num [market_returns]
  have hnc : ¬ AllEq (market_returns (merge [⟨0, 1/100, 1/10000⟩,
      ⟨1, -1/50, 1/10000⟩, ⟨2, 3/200, 1/10000⟩]
      [⟨0, some 1⟩, ⟨1, some 1⟩, ⟨2, some 1⟩])) := by
    rw [hmr]
    intro h
    have := h (1/100) (by simp) (-1/50) (by simp)
    norm_num at this
  have hme : market_excess (merge [⟨0, 1/100, 1/10000⟩, ⟨1, -1/50, 1/10000⟩,
      ⟨2, 3/200, 1/10000⟩] [⟨0, some 1⟩, ⟨1, some 1⟩, ⟨2, some 1⟩]) =
      [99/10000, -201/10000, 149/10000] := by
    rw [hmerge]
    norm_num [market_excess]
  have hlen : (merge [⟨0, 1/100, 1/10000⟩, ⟨1, -1/50, 1/10000⟩,
      ⟨2, 3/200, 1/10000⟩] [⟨0, some 1⟩, ⟨1, some 1⟩, ⟨2, some 1⟩]).length = 3 := by
    rw [hmerge]
    rfl
  have hcum : excess_cum [99/10000, -201/10000, 149/10000] =
      1004346065049/1000000000000 := by
    norm_num [excess_cum]
  have hc1 : (1:ℝ) < ((1004346065049/1000000000000 : ℚ) : ℝ) := by
    push_cast
    norm_num
  have hcpos : (0:ℝ) < ((1004346065049/1000000000000 : ℚ) : ℝ) := by
    linarith
  have hmean_eq : mean_excess [99/10000, -201/10000, 149/10000] 3 =
      ((1004346065049/1000000000000 : ℚ) : ℝ) ^ ((1:ℝ) / ((3:ℕ):ℝ)) - 1 := by
    rw [mean_excess, if_neg (by rw [hcum]; norm_num), hcum]
  have hgm_lt : ((1004346065049/1000000000000 : ℚ) : ℝ) ^ ((1:ℝ) / ((3:ℕ):ℝ)) <
      ((1004346065049/1000000000000 : ℚ) : ℝ) := by
    calc ((1004346065049/1000000000000 : ℚ) : ℝ) ^ ((1:ℝ) / ((3:ℕ):ℝ)) <
        ((1004346065049/1000000000000 : ℚ) : ℝ) ^ (1:ℝ) :=
          Real.rpow_lt_rpow_of_exponent_lt hc1 (by norm_num)
      _ = ((1004346065049/1000000000000 : ℚ) : ℝ) := Real.rpow_one _
  have hgm_gt : (1:ℝ) < ((1004346065049/1000000000000 : ℚ) : ℝ) ^
      ((1:ℝ) / ((3:ℕ):ℝ)) :=
    (Real.one_lt_rpow_iff_of_pos hcpos).mpr (Or.inl ⟨hc1, by norm_num⟩)
  have hmean_ub : mean_excess [99/10000, -201/10000, 149/10000] 3 ≤ 1/200 := by
    rw [hmean_eq]
    have : ((1004346065049/1000000000000 : ℚ) : ℝ) ≤ 1 + 1/200 := by
      push_cast
      norm_num
    linarith
  have hmean_pos : (0:ℝ) ≤ mean_excess [99/10000, -201/10000, 149/10000] 3 := by
    rw [hmean_eq]
    linarith
  have hvar : var_pop [1/100, -1/50, 3/200] = 43/180000 := by
    norm_num [var_pop, list_mean]
  have hstd_lb : (1/100:ℝ) ≤ std_pop [1/100, -1/50, 3/200] := by
    rw [std_pop, hvar]
    calc (1/100:ℝ) = Real.sqrt ((1/100)^2) := (Real.sqrt_sq (by norm_num)).symm
      _ ≤ Real.sqrt ((43/180000 : ℚ) : ℝ) := by
        apply Real.sqrt_le_sqrt
        push_cast
        norm_num
  have hstd_pos : (0:ℝ) < std_pop [1/100, -1/50, 3/200] := by linarith
  have hsqrt_ub : Real.sqrt 252 ≤ 16 :=
    (Real.sqrt_le_left (by norm_num)).mpr (by norm_num)
  have hbound : market_sharpe (merge [⟨0, 1/100, 1/10000⟩, ⟨1, -1/50, 1/10000⟩,
      ⟨2, 3/200, 1/10000⟩] [⟨0, some 1⟩, ⟨1, some 1⟩, ⟨2, some 1⟩]) ≤ 1000000 := by
    rw [market_sharpe, hme, hmr, hlen, sharpe_of]
    have hdiv : mean_excess [99/10000, -201/10000, 149/10000] 3 /
        std_pop [1/100, -1/50, 3/200] ≤ (1/200) / (1/100) :=
      div_le_div₀ (by norm_num) hmean_ub (by norm_num) hstd_lb
    have hdiv' : mean_excess [99/10000, -201/10000, 149/10000] 3 /
        std_pop [1/100, -1/50, 3/200] ≤ 1/2 := by
      calc mean_excess [99/10000, -201/10000, 149/10000] 3 /
          std_pop [1/100, -1/50, 3/200] ≤ (1/200) / (1/100) := hdiv
        _ = 1/2 := by norm_num
    calc mean_excess [99/10000, -201/10000, 149/10000] 3 /
        std_pop [1/100, -1/50, 3/200] * Real.sqrt 252 ≤ (1/2) * 16 :=
          mul_le_mul hdiv' hsqrt_ub (Real.sqrt_nonneg _) (by norm_num)
      _ ≤ 1000000 := by norm_num
  exact ⟨h1, hnc, (C3_all_ones_amended _ _ h1 hnc).2.2.2.2 hbound⟩

end Metric
